import Mathlib

/-!
Shallow embedding of the cache-aside user repository (bqredis-crud).

The Go sources are modelled as follows:
- `internal/repository/base_repository.go`: `ValidatePagination`,
  `CalculateOffset`, `ValidateID` as pure functions.
- `internal/repository/bq_repository.go` (the BigQuery / Primary Store
  Adapter): the warehouse table is a `List User`; each operation takes a
  `storeOk` flag modelling whether the warehouse query itself succeeds
  (query/job failure becomes an `upstream` error, as the Go code wraps the
  client error).
- the Redis cache-aside layer (`RedisRepository`): the cache is an
  association list from key strings to typed cached values (typed values
  model the JSON payload; unmarshalling into the wrong shape fails exactly
  when the cached value has the other shape).  Cache-backend behaviour
  (timeouts, backend errors, whether the fire-and-forget population
  goroutine completes and succeeds) is an explicit `CacheFlags` oracle.
  Redis `DEL` removes exactly the literal keys it is given, so
  `invalidateCache` removes the literal key "users:list:*" and never
  pattern-matches, mirroring go-redis `pipe.Del` semantics.
- `internal/usecase/user_usecase.go`: `GetAllUsers` pagination clamping and
  `CreateUser` field assignment.
Every error is tracked by kind only (`notFound`, `upstream`, `validation`),
because the Go code wraps errors with `%w`, which preserves the kind
observed by `errors.Is`.
-/

deriving instance DecidableEq for Except

namespace BqRedis

/-- The user entity (`internal/domain/entity`): id, name, email and the two
timestamps.  Timestamps are `Nat` instants. -/
structure User where
  id : String
  name : String
  email : String
  createdAt : Nat
  updatedAt : Nat
  deriving Repr, DecidableEq

/-- `PaginationParams` from the repository package; Go `int` is `Int`. -/
structure PaginationParams where
  page : Int
  pageSize : Int
  deriving Repr, DecidableEq

/-- Error kinds surfaced by the repository and use-case layers:
`notFound` is `repository.ErrNotFound`, `upstream` is any wrapped store
client failure, `validation` is `usecase.ErrValidation`. -/
inductive ErrKind where
  | notFound
  | upstream
  | validation
  deriving Repr, DecidableEq

/-- `BaseRepositoryImpl.ValidatePagination`: clamp page to at least 1 and
default pageSize to 10 when it is below 1. -/
def ValidatePagination (p : PaginationParams) : PaginationParams :=
  { page := if p.page < 1 then 1 else p.page
    pageSize := if p.pageSize < 1 then 10 else p.pageSize }

/-- `BaseRepositoryImpl.CalculateOffset`: `(page - 1) * pageSize`. -/
def CalculateOffset (p : PaginationParams) : Int :=
  (p.page - 1) * p.pageSize

/-- `BaseRepositoryImpl.ValidateID`: an empty id is reported as
`ErrNotFound`. -/
def ValidateID (id : String) : Except ErrKind Unit :=
  if id = "" then .error .notFound else .ok ()

/-- Cache key constant `userKeyPrefix = "users:"`. -/
def userKeyPfx : String := "users:"

/-- Cache key constant `userListKeyPrefix = "users:list:"`. -/
def userListKeyPfx : String := "users:list:"

/-- `RedisRepository.generateKey`: singular-record cache key. -/
def generateKey (id : String) : String := userKeyPfx ++ id

/-- `RedisRepository.generateListKey`: list cache key
`users:list:page_<p>:size_<s>` (the `fmt.Sprintf` of `pageKeyFormat`). -/
def generateListKey (p : PaginationParams) : String :=
  userListKeyPfx ++ "page_" ++ toString p.page ++ ":size_" ++ toString p.pageSize

/-! ## Primary Store Adapter (BigQueryRepository) -/

/-- The warehouse table: rows in insertion order. -/
abbrev Store := List User

/-- Insert a user into a list sorted by `createdAt` descending
(the `ORDER BY created_at DESC` of the GetAll query). -/
def insertByCreatedDesc (u : User) : List User → List User
  | [] => [u]
  | v :: vs =>
    if v.createdAt ≤ u.createdAt then u :: v :: vs
    else v :: insertByCreatedDesc u vs

/-- Sort rows by `createdAt` descending. -/
def sortByCreatedDesc : List User → List User
  | [] => []
  | u :: us => insertByCreatedDesc u (sortByCreatedDesc us)

/-- `BigQueryRepository.GetAll`: normalize pagination, compute the offset,
then run the `SELECT ... ORDER BY created_at DESC LIMIT @pageSize OFFSET
@offset` query; a failing query surfaces as an upstream error. -/
def BQGetAll (storeOk : Bool) (s : Store) (p : PaginationParams) :
    Except ErrKind (List User) :=
  let q := ValidatePagination p
  let offset := CalculateOffset q
  if storeOk then
    .ok (((sortByCreatedDesc s).drop offset.toNat).take q.pageSize.toNat)
  else .error .upstream

/-- `BigQueryRepository.GetByID`: validate the id, run the
`SELECT ... WHERE id = @id` query, report `ErrNotFound` when no row
matches, otherwise return the first matching row. -/
def BQGetByID (storeOk : Bool) (s : Store) (id : String) :
    Except ErrKind User :=
  match ValidateID id with
  | .error e => .error e
  | .ok _ =>
    if storeOk then
      match s.filter (fun u => u.id = id) with
      | [] => .error .notFound
      | u :: _ => .ok u
    else .error .upstream

/-- `BigQueryRepository.Create`: the streaming inserter appends the row
(no duplicate check). -/
def BQCreate (storeOk : Bool) (s : Store) (u : User) :
    Except ErrKind Store :=
  if storeOk then .ok (s ++ [u]) else .error .upstream

/-- The effect of the `UPDATE ... SET name, email, updated_at WHERE id`
query on one row. -/
def applyUpdate (u : User) (row : User) : User :=
  if row.id = u.id then
    { row with name := u.name, email := u.email, updatedAt := u.updatedAt }
  else row

/-- `BigQueryRepository.Update`: validate the id, check existence via
`GetByID`, then run the UPDATE query over all rows with the id. -/
def BQUpdate (storeOk : Bool) (s : Store) (u : User) :
    Except ErrKind Store :=
  match ValidateID u.id with
  | .error e => .error e
  | .ok _ =>
    match BQGetByID storeOk s u.id with
    | .error e => .error e
    | .ok _ =>
      if storeOk then .ok (s.map (applyUpdate u)) else .error .upstream

/-- `BigQueryRepository.Delete`: validate the id, check existence via
`GetByID`, then run the `DELETE ... WHERE id = @id` query. -/
def BQDelete (storeOk : Bool) (s : Store) (id : String) :
    Except ErrKind Store :=
  match ValidateID id with
  | .error e => .error e
  | .ok _ =>
    match BQGetByID storeOk s id with
    | .error e => .error e
    | .ok _ =>
      if storeOk then .ok (s.filter (fun u => u.id ≠ id)) else .error .upstream

/-! ## Cache backend (Redis) -/

/-- A cached JSON payload: either one serialized user or one serialized
page of users.  Unmarshalling into the other shape fails. -/
inductive CacheVal where
  | userVal (u : User)
  | listVal (us : List User)
  deriving Repr, DecidableEq

/-- The Redis keyspace: an association list from keys to payloads. -/
abbrev Cache := List (String × CacheVal)

/-- Redis GET: the value stored under a key, if present. -/
def cacheLookup (c : Cache) (k : String) : Option CacheVal :=
  (c.find? (fun kv => kv.1 = k)).map (fun kv => kv.2)

/-- Redis SET: bind a key, replacing any previous binding. -/
def cacheInsert (c : Cache) (k : String) (v : CacheVal) : Cache :=
  (k, v) :: c.filter (fun kv => ¬ kv.1 = k)

/-- How one cache-touching operation behaves, the oracle for backend
failures: `getOk` is false when the cache read times out or the backend
errors; `setOk` is true when the background population goroutine runs to
completion successfully; `invalOk` is true when the invalidation pipeline
succeeds. -/
structure CacheFlags where
  getOk : Bool
  setOk : Bool
  invalOk : Bool
  deriving Repr, DecidableEq

/-- The failure modes of `RedisRepository.cacheGet`, all treated
identically by the callers (any non-nil error falls through). -/
inductive CacheFailure where
  | backend
  | miss
  | malformed
  deriving Repr, DecidableEq

/-- `cacheGet` unmarshalling into a `User`: backend/timeout failure when
`getOk` is false, `redis.Nil` miss when the key is absent, and a
`json.Unmarshal` error when the payload has the list shape. -/
def cacheGetUser (fl : CacheFlags) (c : Cache) (k : String) :
    Except CacheFailure User :=
  if fl.getOk then
    match cacheLookup c k with
    | none => .error .miss
    | some (.userVal u) => .ok u
    | some (.listVal _) => .error .malformed
  else .error .backend

/-- `cacheGet` unmarshalling into a `[]User`. -/
def cacheGetList (fl : CacheFlags) (c : Cache) (k : String) :
    Except CacheFailure (List User) :=
  if fl.getOk then
    match cacheLookup c k with
    | none => .error .miss
    | some (.listVal us) => .ok us
    | some (.userVal _) => .error .malformed
  else .error .backend

/-- `RedisRepository.invalidateCache`: a pipeline of
`DEL users:<id>` and `DEL users:list:*`.  Redis `DEL` removes exactly the
literal keys it is given — the `*` is not a pattern — so precisely the two
literal keys are removed.  Returns the new keyspace and whether the
pipeline succeeded. -/
def invalidateCache (fl : CacheFlags) (c : Cache) (id : String) :
    Cache × Bool :=
  if fl.invalOk then
    (c.filter (fun kv => ¬ kv.1 = generateKey id ∧ ¬ kv.1 = userListKeyPfx ++ "*"), true)
  else (c, false)

/-! ## Cache-aside repository (RedisRepository) -/

/-- Outcome of a cache-aside read: the returned value, the keyspace after
the operation (including the effect of the background population when it
completes), and whether the underlying repository was called. -/
structure ReadResult (α : Type) where
  result : Except ErrKind α
  cache : Cache
  storeCalled : Bool
  deriving Repr, DecidableEq

/-- Outcome of `RedisRepository.GetAll`, additionally recording the cache
key that was derived and the parameters passed to the underlying
repository (`none` when the store was not called). -/
structure ListReadResult where
  result : Except ErrKind (List User)
  cache : Cache
  storeCalled : Bool
  keyUsed : String
  repoParams : Option PaginationParams
  deriving Repr, DecidableEq

/-- Outcome of a cache-aside write: the result, the store and keyspace
after the operation, and whether `invalidateCache` was called. -/
structure WriteResult where
  result : Except ErrKind Unit
  store : Store
  cache : Cache
  invalCalled : Bool
  deriving Repr, DecidableEq

/-- `RedisRepository.GetByID`: validate the id, try the cache under the
singular key, fall through to the underlying repository on any cache
failure, and populate the cache in the background on a successful store
read (the population is applied when the goroutine completes and its SET
succeeds, i.e. when `setOk`). -/
def RedisGetByID (fl : CacheFlags) (storeOk : Bool) (s : Store) (c : Cache)
    (id : String) : ReadResult User :=
  match ValidateID id with
  | .error e => ⟨.error e, c, false⟩
  | .ok _ =>
    let key := generateKey id
    match cacheGetUser fl c key with
    | .ok u => ⟨.ok u, c, false⟩
    | .error _ =>
      match BQGetByID storeOk s id with
      | .error e => ⟨.error e, c, true⟩
      | .ok u =>
        ⟨.ok u, if fl.setOk then cacheInsert c key (.userVal u) else c, true⟩

/-- `RedisRepository.GetAll`: normalize pagination, derive the list key,
try the cache, fall through to the underlying repository on any cache
failure, and populate the cache in the background on success. -/
def RedisGetAll (fl : CacheFlags) (storeOk : Bool) (s : Store) (c : Cache)
    (p : PaginationParams) : ListReadResult :=
  let q := ValidatePagination p
  let cacheKey := generateListKey q
  match cacheGetList fl c cacheKey with
  | .ok us => ⟨.ok us, c, false, cacheKey, none⟩
  | .error _ =>
    match BQGetAll storeOk s q with
    | .error e => ⟨.error e, c, true, cacheKey, some q⟩
    | .ok us =>
      ⟨.ok us, if fl.setOk then cacheInsert c cacheKey (.listVal us) else c,
        true, cacheKey, some q⟩

/-- `RedisRepository.Create`: create in the underlying repository first;
on success invalidate the cache, logging (ignoring) invalidation
failure. -/
def RedisCreate (fl : CacheFlags) (storeOk : Bool) (s : Store) (c : Cache)
    (u : User) : WriteResult :=
  match BQCreate storeOk s u with
  | .error e => ⟨.error e, s, c, false⟩
  | .ok s2 => ⟨.ok (), s2, (invalidateCache fl c u.id).1, true⟩

/-- `RedisRepository.Update`: validate the id, update the underlying
repository, then invalidate the cache, ignoring invalidation failure. -/
def RedisUpdate (fl : CacheFlags) (storeOk : Bool) (s : Store) (c : Cache)
    (u : User) : WriteResult :=
  match ValidateID u.id with
  | .error e => ⟨.error e, s, c, false⟩
  | .ok _ =>
    match BQUpdate storeOk s u with
    | .error e => ⟨.error e, s, c, false⟩
    | .ok s2 => ⟨.ok (), s2, (invalidateCache fl c u.id).1, true⟩

/-- `RedisRepository.Delete`: validate the id, delete from the underlying
repository, then invalidate the cache, ignoring invalidation failure. -/
def RedisDelete (fl : CacheFlags) (storeOk : Bool) (s : Store) (c : Cache)
    (id : String) : WriteResult :=
  match ValidateID id with
  | .error e => ⟨.error e, s, c, false⟩
  | .ok _ =>
    match BQDelete storeOk s id with
    | .error e => ⟨.error e, s, c, false⟩
    | .ok s2 => ⟨.ok (), s2, (invalidateCache fl c id).1, true⟩

/-! ## Use-case layer (UserUseCase) -/

/-- The `max` helper of `user_usecase.go`. -/
def goMax (a b : Int) : Int := if a > b then a else b

/-- The pagination parameters `GetAllUsers` builds before calling the
cache repository: `Page: max(page, 1)`, `PageSize: max(pageSize, 10)`. -/
def GetAllUsersParams (page pageSize : Int) : PaginationParams :=
  { page := goMax page 1, pageSize := goMax pageSize 10 }

/-- `UserUseCase.GetAllUsers`: clamp pagination, then call the cache
repository `GetAll` (error wrapping preserves the kind). -/
def GetAllUsers (fl : CacheFlags) (storeOk : Bool) (s : Store) (c : Cache)
    (page pageSize : Int) : ListReadResult :=
  RedisGetAll fl storeOk s c (GetAllUsersParams page pageSize)

/-- `UserUseCase.validateUser` with `isCreate = true`: name and email must
be non-empty (the id check is skipped). -/
def validateUserCreate (u : User) : Except ErrKind Unit :=
  if u.name = "" then .error .validation
  else if u.email = "" then .error .validation
  else .ok ()

/-- Outcome of `UserUseCase.CreateUser`. -/
structure CreateResult where
  result : Except ErrKind User
  store : Store
  cache : Cache
  deriving Repr, DecidableEq

/-- `UserUseCase.CreateUser`: validate, assign a generated id when the
caller left it empty, set both timestamps to `now`, then create through
the cache repository. -/
def CreateUser (fl : CacheFlags) (storeOk : Bool) (s : Store) (c : Cache)
    (user : User) (genId : String) (now : Nat) : CreateResult :=
  match validateUserCreate user with
  | .error e => ⟨.error e, s, c⟩
  | .ok _ =>
    let user2 : User :=
      { user with
        id := if user.id = "" then genId else user.id
        createdAt := now
        updatedAt := now }
    let w := RedisCreate fl storeOk s c user2
    match w.result with
    | .error e => ⟨.error e, w.store, w.cache⟩
    | .ok _ => ⟨.ok user2, w.store, w.cache⟩

/-! ## Concrete fixtures used by witnesses and counterexamples -/

/-- A stored user, the pre-update row in the concrete scenarios. -/
def exOld : User := ⟨"u1", "alice", "alice@example.com", 1, 1⟩

/-- The post-update payload for the same identifier. -/
def exNew : User := ⟨"u1", "bob", "bob@example.com", 1, 2⟩

/-- A healthy cache backend: reads, population and invalidation all
succeed. -/
def flAllOk : CacheFlags := ⟨true, true, true⟩

/-- A cache backend that is reachable for reads and population but whose
invalidation pipeline fails. -/
def flInvalDown : CacheFlags := ⟨true, true, false⟩

/-- The list cache key for the first default page. -/
def exListKey : String := generateListKey ⟨1, 10⟩

end BqRedis

namespace BqRedis

/-! ## Helper lemmas -/

/-- A write-path `ValidateID` failure makes the store Update fail with the
same kind before any query runs. -/
theorem bqUpdate_of_validate_err (storeOk : Bool) (s : Store) (u : User)
    (e : ErrKind) (h : ValidateID u.id = .error e) :
    BQUpdate storeOk s u = .error e := by
  unfold BQUpdate
  rw [h]

/-- A write-path `ValidateID` failure makes the store Delete fail with the
same kind before any query runs. -/
theorem bqDelete_of_validate_err (storeOk : Bool) (s : Store) (id : String)
    (e : ErrKind) (h : ValidateID id = .error e) :
    BQDelete storeOk s id = .error e := by
  unfold BQDelete
  rw [h]

/-- The cache-aside Create reports exactly the store Create outcome. -/
theorem create_result_eq (fl : CacheFlags) (storeOk : Bool) (s : Store)
    (c : Cache) (u : User) :
    (RedisCreate fl storeOk s c u).result
      = (BQCreate storeOk s u).map (fun _ => ()) := by
  unfold RedisCreate
  cases h : BQCreate storeOk s u <;> simp [Except.map]

/-- The cache-aside Update reports exactly the store Update outcome. -/
theorem update_result_eq (fl : CacheFlags) (storeOk : Bool) (s : Store)
    (c : Cache) (u : User) :
    (RedisUpdate fl storeOk s c u).result
      = (BQUpdate storeOk s u).map (fun _ => ()) := by
  unfold RedisUpdate
  cases hv : ValidateID u.id with
  | error e => rw [bqUpdate_of_validate_err storeOk s u e hv]; simp [Except.map]
  | ok _ => cases h : BQUpdate storeOk s u <;> simp [Except.map]

/-- The cache-aside Delete reports exactly the store Delete outcome. -/
theorem delete_result_eq (fl : CacheFlags) (storeOk : Bool) (s : Store)
    (c : Cache) (id : String) :
    (RedisDelete fl storeOk s c id).result
      = (BQDelete storeOk s id).map (fun _ => ()) := by
  unfold RedisDelete
  cases hv : ValidateID id with
  | error e => rw [bqDelete_of_validate_err storeOk s id e hv]; simp [Except.map]
  | ok _ => cases h : BQDelete storeOk s id <;> simp [Except.map]

/-- A read-path error of `RedisGetByID` is always the error the store
adapter returns on the same input, with its kind unchanged. -/
theorem getByID_err_propagates (fl : CacheFlags) (storeOk : Bool) (s : Store)
    (c : Cache) (id : String) (e : ErrKind)
    (h : (RedisGetByID fl storeOk s c id).result = .error e) :
    BQGetByID storeOk s id = .error e := by
  cases hv : ValidateID id with
  | error e2 =>
    simp only [RedisGetByID, hv] at h
    simp at h
    unfold BQGetByID
    rw [hv, h]
  | ok _ =>
    cases hc : cacheGetUser fl c (generateKey id) with
    | ok u => simp only [RedisGetByID, hv, hc] at h; simp at h
    | error f =>
      cases hb : BQGetByID storeOk s id with
      | error e2 =>
        simp only [RedisGetByID, hv, hc, hb] at h
        simp at h
        rw [h]
      | ok u => simp only [RedisGetByID, hv, hc, hb] at h; simp at h

/-- The store GetAll fails exactly when the warehouse query fails, and
then with the upstream kind. -/
theorem bqGetAll_error_iff (storeOk : Bool) (s : Store) (p : PaginationParams)
    (e : ErrKind) :
    BQGetAll storeOk s p = .error e ↔ storeOk = false ∧ e = .upstream := by
  unfold BQGetAll
  cases storeOk <;> simp [eq_comm]

/-- A read-path error of `RedisGetAll` is always the error the store
adapter returns on the same input, with its kind unchanged. -/
theorem getAll_err_propagates (fl : CacheFlags) (storeOk : Bool) (s : Store)
    (c : Cache) (p : PaginationParams) (e : ErrKind)
    (h : (RedisGetAll fl storeOk s c p).result = .error e) :
    BQGetAll storeOk s p = .error e := by
  cases hc : cacheGetList fl c (generateListKey (ValidatePagination p)) with
  | ok us => simp only [RedisGetAll, hc] at h; simp at h
  | error f =>
    cases hb : BQGetAll storeOk s (ValidatePagination p) with
    | error e2 =>
      simp only [RedisGetAll, hc, hb] at h
      simp at h
      rw [bqGetAll_error_iff] at hb ⊢
      exact ⟨hb.1, h ▸ hb.2⟩
    | ok us => simp only [RedisGetAll, hc, hb] at h; simp at h

/-- When the store read succeeds, the cache-aside read succeeds no matter
how the cache backend behaves. -/
theorem getByID_ok_of_store_ok (fl : CacheFlags) (storeOk : Bool) (s : Store)
    (c : Cache) (id : String) (v : User)
    (h : BQGetByID storeOk s id = .ok v) :
    ∃ w, (RedisGetByID fl storeOk s c id).result = .ok w := by
  cases hv : ValidateID id with
  | error e =>
    unfold BQGetByID at h
    rw [hv] at h
    simp at h
  | ok _ =>
    cases hc : cacheGetUser fl c (generateKey id) with
    | ok u =>
      refine ⟨u, ?_⟩
      simp only [RedisGetByID, hv, hc]
    | error f =>
      refine ⟨v, ?_⟩
      simp only [RedisGetByID, hv, hc, h]

/-- When the warehouse is reachable, the cache-aside GetAll succeeds no
matter how the cache backend behaves. -/
theorem getAll_ok_of_store_ok (fl : CacheFlags) (s : Store)
    (c : Cache) (p : PaginationParams) :
    ∃ vs, (RedisGetAll fl true s c p).result = .ok vs := by
  cases hc : cacheGetList fl c (generateListKey (ValidatePagination p)) with
  | ok us =>
    refine ⟨us, ?_⟩
    simp only [RedisGetAll, hc]
  | error f =>
    cases hb : BQGetAll true s (ValidatePagination p) with
    | error e2 => rw [bqGetAll_error_iff] at hb; simp at hb
    | ok us =>
      refine ⟨us, ?_⟩
      simp only [RedisGetAll, hc, hb]

/-- When the store Create fails, the cache-aside Create forwards the error
and leaves store, cache and the invalidation flag untouched. -/
theorem create_store_err_frame (fl : CacheFlags) (storeOk : Bool) (s : Store)
    (c : Cache) (u : User) (e : ErrKind) (h : BQCreate storeOk s u = .error e) :
    RedisCreate fl storeOk s c u = ⟨.error e, s, c, false⟩ := by
  simp only [RedisCreate, h]

/-- When the store Update fails, the cache-aside Update forwards the error
and leaves store, cache and the invalidation flag untouched. -/
theorem update_store_err_frame (fl : CacheFlags) (storeOk : Bool) (s : Store)
    (c : Cache) (u : User) (e : ErrKind) (h : BQUpdate storeOk s u = .error e) :
    RedisUpdate fl storeOk s c u = ⟨.error e, s, c, false⟩ := by
  cases hv : ValidateID u.id with
  | error e2 =>
    have h2 := bqUpdate_of_validate_err storeOk s u e2 hv
    rw [h] at h2
    simp at h2
    simp only [RedisUpdate, hv, h2]
  | ok _ => simp only [RedisUpdate, hv, h]

/-- When the store Delete fails, the cache-aside Delete forwards the error
and leaves store, cache and the invalidation flag untouched. -/
theorem delete_store_err_frame (fl : CacheFlags) (storeOk : Bool) (s : Store)
    (c : Cache) (id : String) (e : ErrKind) (h : BQDelete storeOk s id = .error e) :
    RedisDelete fl storeOk s c id = ⟨.error e, s, c, false⟩ := by
  cases hv : ValidateID id with
  | error e2 =>
    have h2 := bqDelete_of_validate_err storeOk s id e2 hv
    rw [h] at h2
    simp at h2
    simp only [RedisDelete, hv, h2]
  | ok _ => simp only [RedisDelete, hv, h]

/-- Deleting an identifier with no matching row yields `notFound` from the
store adapter. -/
theorem bqDelete_absent (s : Store) (id : String) (hid : id ≠ "")
    (habs : ∀ v ∈ s, v.id ≠ id) :
    BQDelete true s id = .error .notFound := by
  have hfil : s.filter (fun u => u.id = id) = [] := by
    rw [List.filter_eq_nil_iff]
    intro a ha
    simp [habs a ha]
  simp only [BQDelete, BQGetByID, ValidateID, hid, if_neg, hfil]
  simp [hid]

/-- A `notFound` from the store GetByID means the id is empty or no row
carries it. -/
theorem bqGetByID_notFound (storeOk : Bool) (s : Store) (id : String)
    (h : BQGetByID storeOk s id = .error .notFound) :
    id = "" ∨ ∀ v ∈ s, v.id ≠ id := by
  by_cases hid : id = ""
  · exact Or.inl hid
  · right
    simp only [BQGetByID, ValidateID, hid, if_neg] at h
    cases storeOk with
    | false => simp at h
    | true =>
      cases hfil : s.filter (fun u => u.id = id) with
      | nil =>
        rw [List.filter_eq_nil_iff] at hfil
        intro v hv
        simpa using hfil v hv
      | cons a l => simp [hfil] at h

/-- Normalizing already-normalized pagination changes nothing. -/
theorem valpag_idem (p : PaginationParams) :
    ValidatePagination (ValidatePagination p) = ValidatePagination p := by
  unfold ValidatePagination
  simp only [PaginationParams.mk.injEq]
  constructor <;> (split <;> (try split) <;> omega)

/-- The UPDATE query never rewrites the id column. -/
theorem applyUpdate_id (u row : User) : (applyUpdate u row).id = row.id := by
  unfold applyUpdate
  split <;> simp

/-- The UPDATE query never rewrites the created_at column. -/
theorem applyUpdate_createdAt (u row : User) :
    (applyUpdate u row).createdAt = row.createdAt := by
  unfold applyUpdate
  split <;> simp

/-- A key absent from the keyspace stays absent after any key removal. -/
theorem lookup_filter_none (c : Cache) (k : String) (q : String × CacheVal → Bool)
    (h : cacheLookup c k = none) : cacheLookup (c.filter q) k = none := by
  induction c with
  | nil => rfl
  | cons a l ih =>
    simp only [cacheLookup, List.find?] at h ⊢
    by_cases hk : a.1 = k
    · simp [hk] at h
    · simp only [List.filter_cons]
      have hl : cacheLookup l k = none := by
        simpa [cacheLookup, List.find?, hk] using h
      by_cases hq : q a
      · simp only [hq, if_pos]
        simpa [cacheLookup, List.find?, hk] using ih hl
      · simp only [hq]
        simpa [cacheLookup] using ih hl

/-- A successful invalidation does remove the singular key of the id. -/
theorem invalidate_removes_singular (fl : CacheFlags) (c : Cache) (id : String)
    (h : fl.invalOk = true) :
    cacheLookup (invalidateCache fl c id).1 (generateKey id) = none := by
  simp only [invalidateCache, h, if_pos]
  induction c with
  | nil => rfl
  | cons a l ih =>
    simp only [List.filter_cons]
    by_cases hk : a.1 = generateKey id
    · simp only [hk]
      simpa using ih
    · by_cases hw : a.1 = userListKeyPfx ++ "*"
      · simp only [hw]
        simpa using ih
      · simp only [hk, hw]
        simp only [cacheLookup, List.find?] at ih ⊢
        simpa [hk] using ih

/-- Filtering rows by the updated id commutes with applying the UPDATE,
because the UPDATE preserves ids. -/
theorem filter_map_applyUpdate (u : User) (s : Store) :
    (s.map (applyUpdate u)).filter (fun v => v.id = u.id)
      = (s.filter (fun v => v.id = u.id)).map (applyUpdate u) := by
  induction s with
  | nil => rfl
  | cons a l ih =>
    simp only [List.map_cons, List.filter_cons, applyUpdate_id]
    by_cases h : a.id = u.id <;> simp [h, ih]

end BqRedis

namespace BqRedis

/-! ## Claim theorems -/

/-- C1: evaluation at the failing input.  A successful Update on a healthy
cache backend (invalidation pipeline succeeds) removes the singular key of
the record, yet the previously cached list page under
`users:list:page_1:size_10` survives the mutation, because the pipeline
deletes only the literal key `users:list:*` — contradicting the claim that
all keys in the list namespace are removed. -/
theorem C1_stale_list_page_survives_update :
    (RedisUpdate flAllOk true [exOld]
        [(exListKey, .listVal [exOld]), (generateKey "u1", .userVal exOld)]
        exNew).result = .ok ()
    ∧ (RedisUpdate flAllOk true [exOld]
        [(exListKey, .listVal [exOld]), (generateKey "u1", .userVal exOld)]
        exNew).invalCalled = true
    ∧ cacheLookup (RedisUpdate flAllOk true [exOld]
        [(exListKey, .listVal [exOld]), (generateKey "u1", .userVal exOld)]
        exNew).cache (generateKey "u1") = none
    ∧ cacheLookup (RedisUpdate flAllOk true [exOld]
        [(exListKey, .listVal [exOld]), (generateKey "u1", .userVal exOld)]
        exNew).cache exListKey = some (.listVal [exOld]) := by decide

/-- C2: counterexample to the claim as stated.  With the invalidation
pipeline down during Update but the cache backend healthy again for the
following read, GetByID serves the stale singular cache entry: the
pre-update payload (name alice) is returned even though the store now
holds the post-update payload (name bob). -/
theorem C2_stale_read_counterexample :
    (RedisUpdate flInvalDown true [exOld] [(generateKey "u1", .userVal exOld)]
        exNew).result = .ok ()
    ∧ (RedisGetByID flAllOk true
        (RedisUpdate flInvalDown true [exOld]
          [(generateKey "u1", .userVal exOld)] exNew).store
        (RedisUpdate flInvalDown true [exOld]
          [(generateKey "u1", .userVal exOld)] exNew).cache
        "u1").result = .ok exOld
    ∧ exOld.name ≠ exNew.name ∧ exOld.updatedAt ≠ exNew.updatedAt := by decide

/-- C2 (amended): a successful Update followed by GetByID returns the
post-update record provided the invalidation succeeded, or the follow-up
cache read fails (backend still down), or the singular key was not cached
before the write.  Only a stale singular entry that survives a failed
invalidation and is then served by a recovered backend can return the
pre-update payload. -/
theorem C2_update_then_get_authoritative (fl fl2 : CacheFlags) (s : Store)
    (c : Cache) (u r0 : User) (rest : List User)
    (hid : u.id ≠ "")
    (hs : s.filter (fun v => v.id = u.id) = r0 :: rest)
    (hcase : fl.invalOk = true ∨ fl2.getOk = false
      ∨ cacheLookup c (generateKey u.id) = none) :
    (RedisUpdate fl true s c u).result = .ok ()
    ∧ (RedisGetByID fl2 true (RedisUpdate fl true s c u).store
        (RedisUpdate fl true s c u).cache u.id).result
      = .ok { r0 with
              name := u.name
              email := u.email
              updatedAt := u.updatedAt } := by
  have hvid : ValidateID u.id = .ok () := by simp [ValidateID, hid]
  have hr0 : r0.id = u.id := by
    have hmem : r0 ∈ s.filter (fun v => v.id = u.id) := by
      rw [hs]; exact List.mem_cons_self _ _
    simpa using (List.mem_filter.mp hmem).2
  have hbq : BQGetByID true s u.id = .ok r0 := by
    simp only [BQGetByID, hvid, hs]
    simp
  have hupd : BQUpdate true s u = .ok (s.map (applyUpdate u)) := by
    simp only [BQUpdate, hvid, hbq]
    simp
  have hw : RedisUpdate fl true s c u
      = ⟨.ok (), s.map (applyUpdate u), (invalidateCache fl c u.id).1, true⟩ := by
    simp only [RedisUpdate, hvid, hupd]
  have happ : applyUpdate u r0
      = { r0 with
          name := u.name
          email := u.email
          updatedAt := u.updatedAt } := by
    unfold applyUpdate
    simp [hr0]
  have hbq2 : BQGetByID true (s.map (applyUpdate u)) u.id
      = .ok { r0 with
              name := u.name
              email := u.email
              updatedAt := u.updatedAt } := by
    simp only [BQGetByID, hvid, filter_map_applyUpdate, hs, List.map_cons]
    simp [happ]
  have hmiss : ∃ f, cacheGetUser fl2 (invalidateCache fl c u.id).1
      (generateKey u.id) = .error f := by
    by_cases hget : fl2.getOk = true
    · rcases hcase with hinv | hget2 | hnone
      · exact ⟨.miss, by
          simp [cacheGetUser, hget, invalidate_removes_singular fl c u.id hinv]⟩
      · exact ⟨.backend, by simp [cacheGetUser, hget2]⟩
      · have hnone2 : cacheLookup (invalidateCache fl c u.id).1
            (generateKey u.id) = none := by
          unfold invalidateCache
          split
          · exact lookup_filter_none c _ _ hnone
          · exact hnone
        exact ⟨.miss, by simp [cacheGetUser, hget, hnone2]⟩
    · exact ⟨.backend, by simp [cacheGetUser, hget]⟩
  rcases hmiss with ⟨f, hf⟩
  rw [hw]
  refine ⟨rfl, ?_⟩
  simp only [RedisGetByID, hvid, hf, hbq2]

/-- C2 (amended) witness: concrete run with a healthy backend, discharging
every hypothesis of the amended theorem. -/
theorem C2_update_then_get_witness :
    (exNew.id ≠ "")
    ∧ ([exOld].filter (fun v => v.id = exNew.id) = [exOld])
    ∧ (RedisUpdate flAllOk true [exOld] [(generateKey "u1", .userVal exOld)]
        exNew).result = .ok ()
    ∧ (RedisGetByID flAllOk true
        (RedisUpdate flAllOk true [exOld]
          [(generateKey "u1", .userVal exOld)] exNew).store
        (RedisUpdate flAllOk true [exOld]
          [(generateKey "u1", .userVal exOld)] exNew).cache
        exNew.id).result
      = .ok { exOld with
              name := exNew.name
              email := exNew.email
              updatedAt := exNew.updatedAt } := by
  have h := C2_update_then_get_authoritative flAllOk flAllOk [exOld]
    [(generateKey "u1", .userVal exOld)] exNew exOld [] (by decide) (by decide)
    (Or.inl rfl)
  exact ⟨by decide, by decide, h.1, h.2⟩

/-- C3: every write performs the store operation first; when it fails the
whole operation fails with the same error kind and neither the store, nor
the cache, nor the invalidation routine are touched; Delete of an id with
no matching row returns `notFound` with no cache invalidation call. -/
theorem C3_store_first_no_cache_on_failure (fl : CacheFlags) (storeOk : Bool)
    (s : Store) (c : Cache) (u : User) (id : String) (e : ErrKind) :
    (BQCreate storeOk s u = .error e →
      RedisCreate fl storeOk s c u = ⟨.error e, s, c, false⟩)
    ∧ (BQUpdate storeOk s u = .error e →
      RedisUpdate fl storeOk s c u = ⟨.error e, s, c, false⟩)
    ∧ (BQDelete storeOk s id = .error e →
      RedisDelete fl storeOk s c id = ⟨.error e, s, c, false⟩)
    ∧ (id ≠ "" → (∀ v ∈ s, v.id ≠ id) →
      RedisDelete fl true s c id = ⟨.error .notFound, s, c, false⟩) :=
  ⟨create_store_err_frame fl storeOk s c u e,
   update_store_err_frame fl storeOk s c u e,
   delete_store_err_frame fl storeOk s c id e,
   fun hid habs =>
     delete_store_err_frame fl true s c id .notFound (bqDelete_absent s id hid habs)⟩

/-- C3 witness: deleting a non-existent id on a healthy system returns
`notFound` and performs no invalidation call. -/
theorem C3_store_first_witness :
    ("u1" ≠ "")
    ∧ (∀ v ∈ ([] : Store), v.id ≠ "u1")
    ∧ RedisDelete flAllOk true [] [] "u1"
        = ⟨.error .notFound, [], [], false⟩ :=
  ⟨by decide, by decide,
   (C3_store_first_no_cache_on_failure flAllOk true [] [] exOld "u1"
     .notFound).2.2.2 (by decide) (by decide)⟩

/-- C4: no cache-backend failure is surfaced.  Every error a cache-aside
operation returns is exactly the error of the corresponding store-adapter
call (same kind); each write reports exactly the store outcome, so an
invalidation failure never fails a write; and reads succeed for every
cache behaviour whenever the store read succeeds. -/
theorem C4_cache_failures_never_surface (fl : CacheFlags) (storeOk : Bool)
    (s : Store) (c : Cache) (id : String) (p : PaginationParams) (u : User) :
    (∀ e, (RedisGetByID fl storeOk s c id).result = .error e →
      BQGetByID storeOk s id = .error e)
    ∧ (∀ e, (RedisGetAll fl storeOk s c p).result = .error e →
      BQGetAll storeOk s p = .error e)
    ∧ (RedisCreate fl storeOk s c u).result = (BQCreate storeOk s u).map (fun _ => ())
    ∧ (RedisUpdate fl storeOk s c u).result = (BQUpdate storeOk s u).map (fun _ => ())
    ∧ (RedisDelete fl storeOk s c id).result = (BQDelete storeOk s id).map (fun _ => ())
    ∧ (∀ v, BQGetByID storeOk s id = .ok v →
      ∃ w, (RedisGetByID fl storeOk s c id).result = .ok w)
    ∧ (storeOk = true → ∃ vs, (RedisGetAll fl storeOk s c p).result = .ok vs) :=
  ⟨fun e => getByID_err_propagates fl storeOk s c id e,
   fun e => getAll_err_propagates fl storeOk s c p e,
   create_result_eq fl storeOk s c u,
   update_result_eq fl storeOk s c u,
   delete_result_eq fl storeOk s c id,
   fun v => getByID_ok_of_store_ok fl storeOk s c id v,
   fun hst => by subst hst; exact getAll_ok_of_store_ok fl s c p⟩

/-- C4 witness: with the warehouse down, the surfaced read error is
exactly the store-adapter error. -/
theorem C4_cache_failures_witness :
    ((RedisGetByID flAllOk false [] [] "u1").result = .error .upstream)
    ∧ BQGetByID false [] "u1" = .error .upstream :=
  ⟨by decide,
   (C4_cache_failures_never_surface flAllOk false [] [] "u1" ⟨1, 10⟩
     exOld).1 .upstream (by decide)⟩

/-- C5: over stores whose rows all carry non-empty ids (the invariant the
orchestration layer maintains by assigning ids before first write), a
`notFound` surfaced by the cache-aside GetByID implies the id matches no
row of the authoritative store — it is never derived from a cache miss —
and every surfaced error has the kind of the store-adapter error. -/
theorem C5_notfound_only_from_store (fl : CacheFlags) (storeOk : Bool)
    (s : Store) (c : Cache) (id : String) (hs : ∀ v ∈ s, v.id ≠ "") :
    ((RedisGetByID fl storeOk s c id).result = .error .notFound →
      ∀ v ∈ s, v.id ≠ id)
    ∧ (∀ e, (RedisGetByID fl storeOk s c id).result = .error e →
      BQGetByID storeOk s id = .error e) := by
  constructor
  · intro h
    have hb := getByID_err_propagates fl storeOk s c id .notFound h
    rcases bqGetByID_notFound storeOk s id hb with hid | habs
    · subst hid; exact hs
    · exact habs
  · exact fun e => getByID_err_propagates fl storeOk s c id e

/-- C5 witness: concrete store with a non-empty id; the surfaced error is
the store-adapter error unchanged in kind. -/
theorem C5_notfound_witness :
    (∀ v ∈ [exOld], v.id ≠ "")
    ∧ (RedisGetByID flAllOk false [exOld] [] "u1").result = .error .upstream
    ∧ BQGetByID false [exOld] "u1" = .error .upstream :=
  ⟨by decide, by decide,
   (C5_notfound_only_from_store flAllOk false [exOld] [] "u1"
     (by decide)).2 .upstream (by decide)⟩

/-- C6: for an id present in the store, GetByID on an empty cache calls
the store and returns the record; once the background population has
completed, an immediate second GetByID returns the identical record
without calling the store again. -/
theorem C6_miss_then_hit_no_second_store_call (fl : CacheFlags) (s : Store)
    (id : String) (u : User) (rest : List User)
    (hid : id ≠ "") (hget : fl.getOk = true) (hset : fl.setOk = true)
    (hs : s.filter (fun v => v.id = id) = u :: rest) :
    (RedisGetByID fl true s [] id).result = .ok u
    ∧ (RedisGetByID fl true s [] id).storeCalled = true
    ∧ (RedisGetByID fl true s (RedisGetByID fl true s [] id).cache id).result = .ok u
    ∧ (RedisGetByID fl true s (RedisGetByID fl true s [] id).cache id).storeCalled
        = false := by
  have hvid : ValidateID id = .ok () := by simp [ValidateID, hid]
  have hbq : BQGetByID true s id = .ok u := by
    simp only [BQGetByID, hvid, hs]
    simp
  have hmiss : cacheGetUser fl [] (generateKey id) = .error .miss := by
    simp [cacheGetUser, hget, cacheLookup]
  have hr1 : RedisGetByID fl true s [] id
      = ⟨.ok u, [(generateKey id, .userVal u)], true⟩ := by
    simp only [RedisGetByID, hvid, hmiss, hbq, hset, if_pos]
    simp [cacheInsert]
  have hhit : cacheGetUser fl [(generateKey id, .userVal u)] (generateKey id)
      = .ok u := by
    simp [cacheGetUser, hget, cacheLookup]
  have hr2 : RedisGetByID fl true s [(generateKey id, .userVal u)] id
      = ⟨.ok u, [(generateKey id, .userVal u)], false⟩ := by
    simp only [RedisGetByID, hvid, hhit]
  rw [hr1]
  exact ⟨rfl, rfl, by rw [hr2], by rw [hr2]⟩

/-- C6 witness: concrete miss-then-hit run. -/
theorem C6_miss_then_hit_witness :
    ("u1" ≠ "") ∧ flAllOk.getOk = true ∧ flAllOk.setOk = true
    ∧ ([exOld].filter (fun v => v.id = "u1") = [exOld])
    ∧ (RedisGetByID flAllOk true [exOld] [] "u1").result = .ok exOld
    ∧ (RedisGetByID flAllOk true [exOld]
        (RedisGetByID flAllOk true [exOld] [] "u1").cache "u1").storeCalled
        = false := by
  refine ⟨by decide, rfl, rfl, by decide, ?_, ?_⟩
  · exact (C6_miss_then_hit_no_second_store_call flAllOk [exOld] "u1" exOld []
      (by decide) rfl rfl (by decide)).1
  · exact (C6_miss_then_hit_no_second_store_call flAllOk [exOld] "u1" exOld []
      (by decide) rfl rfl (by decide)).2.2.2

/-- C7: unnormalized pagination never reaches the cache key or the store
query: the derived key is always the key of the normalized parameters, the
underlying repository is only ever called with the normalized parameters,
normalization is idempotent, and therefore the re-normalization inside the
store adapter is the identity — normalization takes effect exactly
once. -/
theorem C7_normalization_before_key_and_query (fl : CacheFlags)
    (storeOk : Bool) (s : Store) (c : Cache) (p : PaginationParams) :
    (RedisGetAll fl storeOk s c p).keyUsed
      = generateListKey (ValidatePagination p)
    ∧ ((RedisGetAll fl storeOk s c p).repoParams = none
       ∨ (RedisGetAll fl storeOk s c p).repoParams = some (ValidatePagination p))
    ∧ ValidatePagination (ValidatePagination p) = ValidatePagination p
    ∧ BQGetAll storeOk s (ValidatePagination p) = BQGetAll storeOk s p := by
  refine ⟨?_, ?_, valpag_idem p, ?_⟩
  · cases hc : cacheGetList fl c (generateListKey (ValidatePagination p)) with
    | ok us => simp only [RedisGetAll, hc]
    | error f =>
      cases hb : BQGetAll storeOk s (ValidatePagination p) with
      | error e => simp only [RedisGetAll, hc, hb]
      | ok us => simp only [RedisGetAll, hc, hb]
  · cases hc : cacheGetList fl c (generateListKey (ValidatePagination p)) with
    | ok us => left; simp only [RedisGetAll, hc]
    | error f =>
      cases hb : BQGetAll storeOk s (ValidatePagination p) with
      | error e => right; simp only [RedisGetAll, hc, hb]
      | ok us => right; simp only [RedisGetAll, hc, hb]
  · simp only [BQGetAll, valpag_idem]

/-- C8: counterexample to the claim as stated.  The identifier is an
opaque string, and for the identifier `list:page_1:size_10` the singular
key coincides with the list key of page 1, size 10: the two families are
not disjoint over all identifiers. -/
theorem C8_key_collision_counterexample :
    generateKey "list:page_1:size_10" = generateListKey ⟨1, 10⟩ := by decide

/-- C8 (amended): the singular key of an id is distinct from every list
key except in the single degenerate case in which the id is literally the
string `list:page_<p>:size_<s>` for that pagination pair. -/
theorem C8_key_families_disjoint_amended (id : String) (p : PaginationParams)
    (h : id ≠ "list:" ++ "page_" ++ toString p.page ++ ":size_"
          ++ toString p.pageSize) :
    generateKey id ≠ generateListKey p := by
  intro heq
  apply h
  have hd := congrArg String.data heq
  simp only [generateKey, generateListKey, userKeyPfx, userListKeyPfx,
    String.data_append] at hd
  have hl : (['u', 's', 'e', 'r', 's', ':', 'l', 'i', 's', 't', ':'] : List Char)
      = ['u', 's', 'e', 'r', 's', ':'] ++ ['l', 'i', 's', 't', ':'] := rfl
  rw [hl] at hd
  simp only [List.append_assoc] at hd
  have hc := List.append_cancel_left hd
  apply String.ext
  simp only [String.data_append, List.append_assoc]
  exact hc

/-- C8 (amended) witness: an ordinary identifier never collides with a
list key. -/
theorem C8_key_families_witness :
    ("abc" ≠ "list:" ++ "page_" ++ toString (1 : Int) ++ ":size_"
        ++ toString (10 : Int))
    ∧ generateKey "abc" ≠ generateListKey ⟨1, 10⟩ :=
  ⟨by decide, C8_key_families_disjoint_amended "abc" ⟨1, 10⟩ (by decide)⟩

/-- C9: Create assigns both timestamps exactly once (the stored record
carries createdAt = updatedAt = now), and the store Update maps every row
through `applyUpdate`, which preserves the id and created_at columns and
leaves unrelated rows entirely unchanged — so created_at never changes
after creation. -/
theorem C9_created_at_immutable (fl : CacheFlags) (storeOk : Bool) (s : Store)
    (c : Cache) (user u : User) (genId : String) (now : Nat) :
    (validateUserCreate user = .ok () →
      (CreateUser fl true s c user genId now).result
          = .ok { user with
                  id := if user.id = "" then genId else user.id
                  createdAt := now
                  updatedAt := now }
      ∧ (CreateUser fl true s c user genId now).store
          = s ++ [{ user with
                    id := if user.id = "" then genId else user.id
                    createdAt := now
                    updatedAt := now }])
    ∧ (∀ s2, BQUpdate storeOk s u = .ok s2 → s2 = s.map (applyUpdate u))
    ∧ (∀ row, (applyUpdate u row).id = row.id
        ∧ (applyUpdate u row).createdAt = row.createdAt
        ∧ (row.id ≠ u.id → applyUpdate u row = row)) := by
  refine ⟨?_, ?_, ?_⟩
  · intro hv
    have hcr : BQCreate true s { user with
        id := if user.id = "" then genId else user.id
        createdAt := now
        updatedAt := now } = .ok (s ++ [{ user with
        id := if user.id = "" then genId else user.id
        createdAt := now
        updatedAt := now }]) := by simp [BQCreate]
    constructor <;>
      simp only [CreateUser, hv, RedisCreate, hcr]
  · intro s2 hupd
    cases hvid : ValidateID u.id with
    | error e => rw [bqUpdate_of_validate_err storeOk s u e hvid] at hupd; simp at hupd
    | ok _ =>
      cases hg : BQGetByID storeOk s u.id with
      | error e => simp only [BQUpdate, hvid, hg] at hupd; simp at hupd
      | ok v =>
        cases storeOk with
        | false => simp only [BQGetByID, hvid] at hg; simp at hg
        | true =>
          simp only [BQUpdate, hvid, hg, if_pos] at hupd
          simp at hupd
          exact hupd.symm
  · intro row
    refine ⟨applyUpdate_id u row, applyUpdate_createdAt u row, ?_⟩
    intro hne
    unfold applyUpdate
    simp [hne]

/-- C9 witness: a concrete Create stores the record with both timestamps
set to now. -/
theorem C9_created_at_witness :
    (validateUserCreate exOld = .ok ())
    ∧ (CreateUser flAllOk true [] [] exOld "g1" 5).result
        = .ok { exOld with id := "u1", createdAt := 5, updatedAt := 5 }
    ∧ (CreateUser flAllOk true [] [] exOld "g1" 5).store
        = [{ exOld with id := "u1", createdAt := 5, updatedAt := 5 }] := by
  have h := (C9_created_at_immutable flAllOk true [] [] exOld exOld "g1" 5).1
    (by decide)
  refine ⟨by decide, ?_, ?_⟩
  · have h1 := h.1
    simpa [exOld] using h1
  · have h2 := h.2
    simpa [exOld] using h2

/-- C10: the use-case GetAllUsers passes the repository exactly the
clamped parameters, whose page size is `max(pageSize, 10)`; it is always
at least 10 and equals 10 for every requested size from 1 through 9, and
the repository normalization leaves these parameters unchanged — so no
list page of size 1 through 9 can be requested through the use-case
layer. -/
theorem C10_pagesize_clamped_to_ten (fl : CacheFlags) (storeOk : Bool)
    (s : Store) (c : Cache) (page pageSize : Int) :
    GetAllUsers fl storeOk s c page pageSize
      = RedisGetAll fl storeOk s c (GetAllUsersParams page pageSize)
    ∧ 10 ≤ (GetAllUsersParams page pageSize).pageSize
    ∧ (1 ≤ pageSize → pageSize ≤ 9 →
        (GetAllUsersParams page pageSize).pageSize = 10)
    ∧ ValidatePagination (GetAllUsersParams page pageSize)
        = GetAllUsersParams page pageSize := by
  refine ⟨rfl, ?_, ?_, ?_⟩
  · simp only [GetAllUsersParams, goMax]
    split <;> omega
  · intro h1 h2
    simp only [GetAllUsersParams, goMax]
    split <;> omega
  · simp only [GetAllUsersParams, goMax, ValidatePagination,
      PaginationParams.mk.injEq]
    constructor <;> split <;> split <;> omega

/-- C10 witness: a requested page size of 3 is raised to 10. -/
theorem C10_pagesize_witness :
    ((1 : Int) ≤ 3) ∧ ((3 : Int) ≤ 9)
    ∧ (GetAllUsersParams 2 3).pageSize = 10 :=
  ⟨by decide, by decide,
   (C10_pagesize_clamped_to_ten flAllOk true [] [] 2 3).2.2.1
     (by decide) (by decide)⟩

end BqRedis
